import Mathlib

/-!
Verification development for the rtlive-global testcount preprocessing module
(`rtlive/preprocessing.py`): a shallow embedding of `get_holidays`,
`predict_testcounts` and `predict_testcounts_all_regions`, with theorems about
the behaviours described in the specification.

Conventions of the embedding:
* A calendar timestamp is a pair of its absolute day ordinal (as in
  `datetime.date.toordinal`) together with the calendar year that day falls in;
  ordering and day arithmetic use the ordinal, `.year` reads the year field.
* A missing value (`NaN`) is `Option.none`; present values are rationals.
* Mutation of the caller's series (in-place rename and sort) is modelled by
  returning the final state of the series next to the result.
* The Prophet model is an opaque capability: a function from the configuration,
  the fit frame and the predict frame to a point estimate (`yhat`) per date.
  Calls to external capabilities (holiday fetching, model fit, model predict)
  are recorded in an event log that the function also returns.
* Python exceptions are `Except` errors; the distinct raise sites of the source
  are distinct constructors.
-/

set_option autoImplicit false

deriving instance DecidableEq for Except

namespace Rtlive

/-- A calendar date: absolute day ordinal plus the calendar year it falls in
(mirroring what `datetime` exposes as ordering/arithmetic and `.year`). -/
structure Date where
  ord : Int
  year : Int
deriving DecidableEq, Repr

instance : LE Date := ⟨fun a b => a.ord ≤ b.ord⟩

instance (a b : Date) : Decidable (a ≤ b) :=
  inferInstanceAs (Decidable (a.ord ≤ b.ord))

/-- `max` of two timestamps as Python's `max` computes it. -/
def maxD (a b : Date) : Date := if a.ord < b.ord then b else a

/-- The `region` argument of the Python functions: `None`, a string, or a list
of strings. -/
inductive RegionSel where
  | none
  | str (s : String)
  | list (rs : List String)
deriving DecidableEq, Repr

/-- Python truthiness of the region argument (`if not region:`): `None`, the
empty string and the empty list are falsy. -/
def RegionSel.falsy : RegionSel → Bool
  | RegionSel.none => true
  | RegionSel.str s => s.isEmpty
  | RegionSel.list rs => rs.isEmpty

/-- `numpy.atleast_1d` applied to the region argument: `None` becomes a
one-element array holding `None`, a string becomes a one-element array, a list
stays as is.  Only the length and the string elements are ever used. -/
def atleast1d : RegionSel → List (Option String)
  | RegionSel.none => [Option.none]
  | RegionSel.str s => [some s]
  | RegionSel.list rs => rs.map some

/-- The requested subdivision codes after the `if not region: region = []`
normalization of `get_holidays` (so never containing `None`). -/
def requestedRegions (region : RegionSel) : List String :=
  match (if region.falsy then RegionSel.list [] else region) with
  | RegionSel.none => []
  | RegionSel.str s => [s]
  | RegionSel.list rs => rs

/-- The distinct exception sites of the source module. -/
inductive PyError where
  /-- `iso3166.countries.get` failed to resolve the country query. -/
  | keyErrorCountryISO (query : String)
  /-- `get_holidays` line 49: country not found in the `holidays` package. -/
  | keyErrorCountry (alpha3 : String)
  /-- `get_holidays` line 70: region not found in states or provinces. -/
  | keyErrorRegion (region : String)
  /-- column selection on a dataframe that lacks the column. -/
  | keyErrorColumn (column : String)
  /-- `raise ValueError(...)`. -/
  | valueError (msg : String)
  /-- out-of-bounds positional indexing such as `index[0]` on an empty index. -/
  | indexError
  /-- `numpy.testing.assert_array_equal` failure. -/
  | assertionError
deriving DecidableEq, Repr

/-- A holiday dictionary: datetime keys to holiday-name values, in insertion
order, with unique keys (`dict` semantics). -/
abbrev NamedDates := List (Date × String)

/-- One entry of a date-indexed testcount series: date and value, `none` being
`NaN`. -/
abbrev Entry := Date × Option ℚ

/-- A `pandas.Series` of testcounts: index name, series name, and the
date-indexed entries in index order. -/
structure Series where
  indexName : String
  name : String
  entries : List Entry
deriving DecidableEq, Repr

/-- `dict` insertion: overwrite the value at an existing key, else append. -/
def dictInsert (d : Date) (v : String) : NamedDates → NamedDates
  | [] => [(d, v)]
  | (d', v') :: rest =>
    if d = d' then (d', v) :: rest else (d', v') :: dictInsert d v rest

/-- `base.update(upd)`: merge a dictionary into another, last write wins. -/
def dictUpdate (base upd : NamedDates) : NamedDates :=
  upd.foldl (fun acc p => dictInsert p.1 p.2 acc) base

/-- The per-country object of the `holidays` package, as probed by the source:
its `PROVINCES` list, whether it has a `STATES` attribute and that list, and
the holiday dictionaries it produces for a set of years — nation-wide, for one
province, or for one state. -/
structure CountryCls where
  PROVINCES : List String
  hasSTATES : Bool
  STATES : List String
  national : List Int → NamedDates
  provHolidays : String → List Int → NamedDates
  stateHolidays : String → List Int → NamedDates

/-- The external country/holiday data environment: the iso3166 resolver from a
country query to its alpha-3 code, and the per-country holiday class when the
`holidays` package has one. -/
structure HolEnv where
  resolveAlpha3 : String → Option String
  holidaysAttr : String → Option CountryCls

/-- The `for region in regions:` loop of `get_holidays` (lines 62 to 72):
merge each requested subdivision's holidays into the accumulator, or raise a
key error for a subdivision in neither the province nor the state list. -/
def mergeRegions (cls : CountryCls) (years : List Int) :
    NamedDates → List String → Except PyError NamedDates
  | acc, [] => Except.ok acc
  | acc, r :: rs =>
    if r ∈ cls.PROVINCES then
      mergeRegions cls years (dictUpdate acc (cls.provHolidays r years)) rs
    else if cls.hasSTATES = true ∧ r ∈ cls.STATES then
      mergeRegions cls years (dictUpdate acc (cls.stateHolidays r years)) rs
    else
      Except.error (PyError.keyErrorRegion r)

/-- `get_holidays(country, region, years)` (lines 21 to 73 of the source). -/
def get_holidays (env : HolEnv) (country : String) (region : RegionSel)
    (years : List Int) : Except PyError NamedDates :=
  match env.resolveAlpha3 country with
  | Option.none => Except.error (PyError.keyErrorCountryISO country)
  | some alpha3 =>
    match env.holidaysAttr alpha3 with
    | Option.none => Except.error (PyError.keyErrorCountry alpha3)
    | some cls =>
      if (if region.falsy then RegionSel.list [] else region) = RegionSel.str "all" then
        mergeRegions cls years (cls.national years)
          (if cls.hasSTATES then cls.STATES else cls.PROVINCES)
      else
        mergeRegions cls years (cls.national years) (requestedRegions region)

/-- `testcounts.sort_index(inplace=True)`: sort the entries ascending by
date. -/
def sortEntries (l : List Entry) : List Entry :=
  List.insertionSort (fun p q : Entry => p.1.ord ≤ q.1.ord) l

/-- `mask_fit` at one date: `date >= ignore_before`. -/
def maskFit (ib : Date) (d : Date) : Bool := decide (ib ≤ d)

/-- `mask_predict` at one entry: with `keep_data`, dates at or past the floor
whose value is `NaN`; otherwise all dates at or past the floor. -/
def maskPredict (keep_data : Bool) (ib : Date) (d : Date) (v : Option ℚ) : Bool :=
  if keep_data then maskFit ib d && v.isNone else maskFit ib d

/-- `numpy.clip(x, lo, hi) = min(max(x, lo), hi)`. -/
def npClip (x lo hi : ℚ) : ℚ := min (max x lo) hi

/-- `numpy.max` over the values of a series: `NaN` propagates. -/
def npMax : List (Option ℚ) → Option ℚ
  | [] => Option.none
  | [v] => v
  | v :: vs =>
    match v, npMax vs with
    | some a, some b => some (max a b)
    | _, _ => Option.none

/-- Maximum of a list of rationals (`Series.max()` on the `yhat` column);
the empty case is unreachable on the paths that use it. -/
def listMax : List ℚ → ℚ
  | [] => 0
  | x :: xs => xs.foldl max x

/-- One row of the holiday dataframe handed to Prophet: `ds`, `name`,
`holiday` columns. -/
structure HolidayRow where
  ds : Date
  name : String
  holiday : String
deriving DecidableEq, Repr

/-- A dataframe handed to Prophet: the `ds`/`y` rows and, when growth is
logistic, the constant `floor` column and the `cap` column. -/
structure Frame where
  rows : List Entry
  floorCap : Option (ℚ × Option ℚ)
deriving DecidableEq, Repr

/-- The Prophet configuration assembled at lines 184 to 196.  Only `growth`
steers control flow in the source; the remaining fields are recorded and
passed to the opaque model capability. -/
structure ProphetConfig where
  growth : String
  seasonality_mode : String
  daily_seasonality : Bool
  weekly_seasonality : Bool
  yearly_seasonality : Bool
  holidays : List HolidayRow
  mcmc_samples : Nat
  n_changepoints : Nat
deriving DecidableEq, Repr

/-- The opaque forecasting capability: configuration, fit frame and predict
frame determine a point estimate (`yhat`) for each date. -/
def Engine : Type := ProphetConfig → Frame → Frame → Date → ℚ

/-- The external interactions of one `predict_testcounts` call, in order. -/
inductive Event where
  | fetchHolidays (country : String) (region : RegionSel) (years : List Int)
  | modelFit (df : Frame)
  | modelPredict (df : Frame)
deriving DecidableEq, Repr

/-- The `ForecastingResult` tuple: result series, model handle (its
configuration), the forecast frame (`ds` and `yhat` columns; the other columns
are opaque to this development), and the holiday dictionary used. -/
structure FResult where
  result : Series
  model : ProphetConfig
  forecast : List (Date × ℚ)
  all_holidays : NamedDates
deriving DecidableEq, Repr

/-- The keyword arguments of `predict_testcounts`.  Of the free-form
`**kwargs` only the `growth` key is inspected by the function body itself;
`growthKw` models the caller's override of that key. -/
structure PTArgs where
  country : String
  region : RegionSel
  regional_holidays : Bool
  keep_data : Bool
  ignore_before : Option Date
  growthKw : Option String
deriving DecidableEq, Repr

/-- The message of the `ValueError` raised at lines 150 to 153. -/
def configErrorMsg : String :=
  "Predicting test counts only at national level or for one region only. " ++
  "Cannot ask for regional holiday. Set regional_holidays kwarg to False."

/-- Lines 139 to 144 applied pointwise, reassembling the result series at
lines 220 to 225: original values everywhere, the clipped point estimate where
`mask_predict` holds.  Under unique dates, label alignment of the clipped
`yhat` series coincides with this per-date lookup. -/
def reassemble (keep_data : Bool) (ib : Date) (yhat : Date → ℚ) (maxY : ℚ)
    (entries : List Entry) : List Entry :=
  entries.map fun p =>
    if maskPredict keep_data ib p.1 p.2 then (p.1, some (npClip (yhat p.1) 0 maxY)) else p

/-- Lines 184 to 196: the Prophet configuration, its defaults overridden by
the caller's `growth` kwarg when given, `n_changepoints = ceil(days / 30)`
over the span of the sorted series. -/
def prophetCfg (a : PTArgs) (first lastE : Entry) (holiday_df : List HolidayRow) :
    ProphetConfig := {
  growth := a.growthKw.getD "logistic"
  seasonality_mode := "multiplicative"
  daily_seasonality := false
  weekly_seasonality := true
  yearly_seasonality := false
  holidays := holiday_df
  mcmc_samples := 500
  n_changepoints := ((lastE.1.ord - first.1.ord).toNat + 29) / 30 }

/-- Lines 206 to 209 and 214 to 216: the `floor`/`cap` columns, present only
for logistic growth; `cap = numpy.max(testcounts)` propagates `NaN`. -/
def floorCapOf (a : PTArgs) (tcS : Series) : Option (ℚ × Option ℚ) :=
  if a.growthKw.getD "logistic" = "logistic" then
    some ((0 : ℚ), npMax (tcS.entries.map Prod.snd))
  else Option.none

/-- Lines 200 to 209: the training frame, restricted to the `mask_fit` rows. -/
def fitFrame (a : PTArgs) (tcS : Series) (ib : Date) : Frame :=
  ⟨tcS.entries.filter fun p => maskFit ib p.1, floorCapOf a tcS⟩

/-- Lines 213 to 216: the prediction frame over the entire index. -/
def predictFrame (a : PTArgs) (tcS : Series) : Frame :=
  ⟨tcS.entries, floorCapOf a tcS⟩

/-- The opaque model's point estimate per date for this call: the engine
applied to the configuration, the fit frame and the predict frame. -/
def yhatOf (eng : Engine) (a : PTArgs) (tcS : Series) (first lastE : Entry)
    (ib : Date) (holiday_df : List HolidayRow) : Date → ℚ :=
  eng (prophetCfg a first lastE holiday_df) (fitFrame a tcS ib) (predictFrame a tcS)

/-- Lines 182 to 227: configure the model, fit on the masked subset, predict
over the full index and reassemble the result series. -/
def runModel (eng : Engine) (a : PTArgs) (tcS : Series) (first lastE : Entry)
    (ib : Date) (holiday_df : List HolidayRow) (all_holidays : NamedDates) :
    List Event × Except PyError FResult :=
  ([Event.modelFit (fitFrame a tcS ib), Event.modelPredict (predictFrame a tcS)],
    Except.ok {
      result := { indexName := "date", name := "testcount",
                  entries := reassemble a.keep_data ib
                    (yhatOf eng a tcS first lastE ib holiday_df)
                    (listMax ((tcS.entries.map fun p =>
                      (p.1, yhatOf eng a tcS first lastE ib holiday_df p.1)).map Prod.snd))
                    tcS.entries }
      model := prophetCfg a first lastE holiday_df
      forecast := tcS.entries.map fun p =>
        (p.1, yhatOf eng a tcS first lastE ib holiday_df p.1)
      all_holidays := all_holidays })

/-- Lines 154 to 180: build the holiday dataframe, fetching the regional and
national calendars when regional distinction is requested for several regions,
else the national calendar only. -/
def buildHolidayTable (env : HolEnv) (a : PTArgs) (years : List Int) :
    List Event × Except PyError (List HolidayRow × NamedDates) :=
  if (a.region = RegionSel.str "all" ∨ 1 < (atleast1d a.region).length) ∧
      a.regional_holidays = true then
    match get_holidays env a.country a.region years with
    | Except.error e => ([Event.fetchHolidays a.country a.region years], Except.error e)
    | Except.ok all_holidays =>
      match get_holidays env a.country RegionSel.none years with
      | Except.error e =>
        ([Event.fetchHolidays a.country a.region years,
          Event.fetchHolidays a.country RegionSel.none years], Except.error e)
      | Except.ok national_holidays =>
        ([Event.fetchHolidays a.country a.region years,
          Event.fetchHolidays a.country RegionSel.none years],
          Except.ok
            (all_holidays.map fun p =>
              { ds := p.1, name := p.2,
                holiday := if (national_holidays.map Prod.fst).contains p.1
                  then "national" else "regional" },
              all_holidays))
  else
    match get_holidays env a.country RegionSel.none years with
    | Except.error e => ([Event.fetchHolidays a.country RegionSel.none years], Except.error e)
    | Except.ok all_holidays =>
      ([Event.fetchHolidays a.country RegionSel.none years],
        Except.ok
          (all_holidays.map fun p => { ds := p.1, name := p.2, holiday := "holiday" },
            all_holidays))

/-- Lines 136 to 227, after the in-place sort, with the resolved
`ignore_before` floor: masks, year set, the regional-holiday validity check,
holiday table and model run.  The first component is the final state of the
(sorted, renamed) input series. -/
def predictCore (env : HolEnv) (eng : Engine) (tcS : Series) (ib : Date)
    (a : PTArgs) : Series × List Event × Except PyError FResult :=
  match tcS.entries with
  | [] => (tcS, [], Except.error PyError.indexError)
  | first :: rest =>
    if a.region ≠ RegionSel.str "all" ∧ (atleast1d a.region).length ≤ 1 ∧
        a.regional_holidays = true then
      (tcS, [], Except.error (PyError.valueError configErrorMsg))
    else
      match buildHolidayTable env a
          (List.dedup [first.1.year, ((first :: rest).getLastD first).1.year]) with
      | (evs, Except.error e) => (tcS, evs, Except.error e)
      | (evs, Except.ok (holiday_df, all_holidays)) =>
        (tcS,
          evs ++ (runModel eng a tcS first ((first :: rest).getLastD first) ib
            holiday_df all_holidays).1,
          (runModel eng a tcS first ((first :: rest).getLastD first) ib
            holiday_df all_holidays).2)

/-- `predict_testcounts(testcounts, ...)` (lines 76 to 227).  The first
component of the value is the final state of the caller's series (mutated in
place by the source: index renamed to `date`, series renamed to `total`,
index sorted); the second is the event log; the third the outcome.  Note that
the `ignore_before` default is taken from `index[0]` before the sort. -/
def predict_testcounts (env : HolEnv) (eng : Engine) (testcounts : Series)
    (a : PTArgs) : Series × List Event × Except PyError FResult :=
  match a.ignore_before, testcounts.entries with
  | Option.none, [] =>
    ({ testcounts with indexName := "date", name := "total" }, [],
      Except.error PyError.indexError)
  | some ib, _ =>
    predictCore env eng
      { indexName := "date", name := "total", entries := sortEntries testcounts.entries }
      ib a
  | Option.none, e0 :: _ =>
    predictCore env eng
      { indexName := "date", name := "total", entries := sortEntries testcounts.entries }
      e0.1 a

/-- The year set that line 146 computes, read off the sorted entries: the
years of the first and the last date. -/
def yearsOf (l : List Entry) : List Int :=
  match sortEntries l with
  | [] => []
  | e :: es => List.dedup [e.1.year, ((e :: es).getLastD e).1.year]

/-- The `[region, date]`-indexed input dataframe of
`predict_testcounts_all_regions`: one row per (region, date) carrying the
`new_tests` value. -/
structure DataFrame where
  rows : List (String × Date × Option ℚ)
deriving DecidableEq, Repr

/-- `df.xs(region)`: the date-indexed sub-series of one region, in row
order. -/
def xsRegion (rows : List (String × Date × Option ℚ)) (r : String) : List Entry :=
  rows.filterMap fun t => if t.1 = r then some t.2 else Option.none

/-- Number of non-missing `new_tests` observations of one region
(`n_train = sum(~new_tests_nans)`). -/
def nTrain (rows : List (String × Date × Option ℚ)) (r : String) : Nat :=
  ((xsRegion rows r).filter fun p => p.2.isSome).length

/-- Lexicographic code-point comparison of two character lists: the order
string labels are sorted by. -/
def strLt : List Char → List Char → Bool
  | [], [] => false
  | [], _ :: _ => true
  | _ :: _, [] => false
  | c :: cs, d :: ds =>
    if c.toNat < d.toNat then true
    else if d.toNat < c.toNat then false
    else strLt cs ds

/-- Insert a string into a sorted duplicate-free list. -/
def insertStr (s : String) : List String → List String
  | [] => [s]
  | t :: ts =>
    if strLt s.data t.data then s :: t :: ts
    else if s = t then t :: ts else t :: insertStr s ts

/-- `df.index.levels[0]`: the sorted distinct region labels. -/
def sortedUnique (l : List String) : List String := l.foldr insertStr []

/-- `pandas.Timestamp("2020-03-15")` (ordinal of 2020-03-15). -/
def ts_2020_03_15 : Date := ⟨737499, 2020⟩

/-- The `**predict_testcounts_kwargs` of the batch runner as far as they can
interact with its own defaults: overrides for `keep_data`, `growth`,
`ignore_before` and `regional_holidays`. -/
structure PTOverrides where
  keep_data : Option Bool := Option.none
  growth : Option String := Option.none
  ignore_before : Option Date := Option.none
  regional_holidays : Option Bool := Option.none
deriving DecidableEq, Repr

/-- `df.loc[region, "predicted_new_tests"] = result_series.values`: write the
values positionally into the rows of the given region, leaving other rows
unchanged. -/
def assignRegion : List (String × Date × Option ℚ) → List (Option ℚ) → String →
    List (Option ℚ) → List (Option ℚ)
  | [], _, _, _ => []
  | _ :: _, [], _, _ => []
  | row :: rows, p :: ps, r, vals =>
    if row.1 = r then
      match vals with
      | [] => p :: assignRegion rows ps r []
      | v :: vs => v :: assignRegion rows ps r vs
    else
      p :: assignRegion rows ps r vals

/-- The loop state of the batch runner: the `predicted_new_tests` column
(absent until first created, then one optional value per row) and the
`results` mapping in insertion order. -/
structure BatchState where
  pred : Option (List (Option ℚ))
  results : List (String × FResult)

/-- The effective keyword arguments of the per-region `predict_testcounts`
call of the batch runner: `keep_data=True`, `growth="linear"` and
`ignore_before = max(2020-03-15, first non-missing date)` as defaults,
overridden by the caller's `**predict_testcounts_kwargs`; `f` is the first
non-missing entry of the region. -/
def batchArgs (country_alpha2 : String) (ov : PTOverrides) (r : String)
    (f : Entry) : PTArgs := {
  country := country_alpha2
  region := RegionSel.str r
  regional_holidays := ov.regional_holidays.getD false
  keep_data := ov.keep_data.getD true
  ignore_before := some (ov.ignore_before.getD (maxD ts_2020_03_15 f.1))
  growthKw := some (ov.growth.getD "linear") }

/-- The `for region in df.index.levels[0]:` loop (lines 253 to 280).  Returns
the regions for which imputation was attempted, and either the final state or
the first propagated error.  A region with more than 10 non-missing
observations is forecast with the `batchArgs` configuration, the result index
is asserted against the region's index, and the predicted column is written
(created on first write, all other rows missing); other regions are only
logged. -/
def batchLoop (env : HolEnv) (eng : Engine) (country_alpha2 : String)
    (ov : PTOverrides) (rows : List (String × Date × Option ℚ)) :
    List String → BatchState → List String × Except PyError BatchState
  | [], st => ([], Except.ok st)
  | r :: rs, st =>
    if 10 < nTrain rows r then
      match (xsRegion rows r).filter fun p => p.2.isSome with
      | [] => ([r], Except.error PyError.indexError)
      | f :: _ =>
        match (predict_testcounts env eng ⟨"date", "new_tests", xsRegion rows r⟩
            (batchArgs country_alpha2 ov r f)).2.2 with
        | Except.error e => ([r], Except.error e)
        | Except.ok fr =>
          if fr.result.entries.map Prod.fst = (xsRegion rows r).map Prod.fst then
            match batchLoop env eng country_alpha2 ov rows rs
                ⟨some (assignRegion rows (st.pred.getD (rows.map fun _ => Option.none))
                  r (fr.result.entries.map Prod.snd)),
                  st.results ++ [(r, fr)]⟩ with
            | (atts, res) => (r :: atts, res)
          else ([r], Except.error PyError.assertionError)
    else
      batchLoop env eng country_alpha2 ov rows rs st

/-- `predict_testcounts_all_regions(df, country_alpha2, **kwargs)` (lines 230
to 281).  The caller's frame is copied, so only the event-like list of
attempted regions and the outcome are returned: on success the combined
`predicted_new_tests` series (region, date, value per row) and the per-region
results mapping; selecting the never-created column is a key error. -/
def predict_testcounts_all_regions (env : HolEnv) (eng : Engine) (df : DataFrame)
    (country_alpha2 : String) (ov : PTOverrides) :
    List String ×
      Except PyError (List (String × Date × Option ℚ) × List (String × FResult)) :=
  match batchLoop env eng country_alpha2 ov df.rows
      (sortedUnique (df.rows.map fun t => t.1)) ⟨Option.none, []⟩ with
  | (attempts, Except.error e) => (attempts, Except.error e)
  | (attempts, Except.ok st) =>
    match st.pred with
    | Option.none =>
      (attempts, Except.error (PyError.keyErrorColumn "predicted_new_tests"))
    | some pred =>
      (attempts,
        Except.ok (List.zipWith (fun t v => (t.1, t.2.1, v)) df.rows pred, st.results))

/-- A holiday environment with one resolvable country and no subdivisions,
used by the concrete witnesses. -/
def clsD : CountryCls := {
  PROVINCES := []
  hasSTATES := false
  STATES := []
  national := fun _ => []
  provHolidays := fun _ _ => []
  stateHolidays := fun _ _ => [] }

/-- Concrete holiday environment resolving every query to `DEU` with the
subdivision-free country class `clsD`. -/
def envD : HolEnv := {
  resolveAlpha3 := fun _ => some "DEU"
  holidaysAttr := fun _ => some clsD }

/-- A model capability whose point estimate is the constant `7`. -/
def engD : Engine := fun _ _ _ _ => 7

/-- A model capability whose point estimate is the constant `-1`. -/
def engNeg : Engine := fun _ _ _ _ => -1

/-- 2020-01-01. -/
def dA : Date := ⟨737425, 2020⟩

/-- 2020-01-02. -/
def dB : Date := ⟨737426, 2020⟩

/-- A two-day series with one observed and one missing value. -/
def tcD : Series := ⟨"d", "x", [(dA, some 5), (dB, Option.none)]⟩

/-- Plain national-level arguments: `keep_data=True` and all defaults. -/
def aD : PTArgs := {
  country := "DE"
  region := RegionSel.none
  regional_holidays := false
  keep_data := true
  ignore_before := Option.none
  growthKw := Option.none }

/-- The Prophet configuration produced for a two-day holiday-free call with
all defaults. -/
def cfgD : ProphetConfig := {
  growth := "logistic"
  seasonality_mode := "multiplicative"
  daily_seasonality := false
  weekly_seasonality := true
  yearly_seasonality := false
  holidays := []
  mcmc_samples := 500
  n_changepoints := 1 }

/-- The forecast result of `predict_testcounts envD engD tcD aD`. -/
def frD : FResult := {
  result := ⟨"date", "testcount", [(dA, some 5), (dB, some 7)]⟩
  model := cfgD
  forecast := [(dA, 7), (dB, 7)]
  all_holidays := [] }

/-- The forecast result of `predict_testcounts envD engNeg tcD aD`: the kept
observation `5` and the clip of `-1` into `[0, -1]`, which is `-1`. -/
def frNeg : FResult := {
  result := ⟨"date", "testcount", [(dA, some 5), (dB, some (-1))]⟩
  model := cfgD
  forecast := [(dA, -1), (dB, -1)]
  all_holidays := [] }

/-- A two-day series passed with an unsorted (descending) date index. -/
def tcU : Series := ⟨"d", "x", [(dB, some 3), (dA, some 4)]⟩

/-- The forecast result of `predict_testcounts envD engD tcU aD`: sorted
index, both observations kept. -/
def frU : FResult := {
  result := ⟨"date", "testcount", [(dA, some 4), (dB, some 3)]⟩
  model := cfgD
  forecast := [(dA, 7), (dB, 7)]
  all_holidays := [] }

/-- 2019-01-01. -/
def d19 : Date := ⟨737060, 2019⟩

/-- 2020-03-16. -/
def d20 : Date := ⟨737500, 2020⟩

/-- 2021-01-10. -/
def d21 : Date := ⟨737800, 2021⟩

/-- A sorted series with one date in each of the years 2019, 2020, 2021. -/
def tc3y : Series := ⟨"d", "x", [(d19, some 1), (d20, some 2), (d21, some 3)]⟩

/-- Arguments like `aD` but with `keep_data=False`. -/
def a5 : PTArgs := {
  country := "DE"
  region := RegionSel.none
  regional_holidays := false
  keep_data := false
  ignore_before := Option.none
  growthKw := Option.none }

/-- The forecast result of `predict_testcounts envD engD tcU a5`: the date
below the position-0 floor keeps its observation, the other is predicted. -/
def fr5 : FResult := {
  result := ⟨"date", "testcount", [(dA, some 4), (dB, some 7)]⟩
  model := cfgD
  forecast := [(dA, 7), (dB, 7)]
  all_holidays := [] }

/-- Arguments like `aD` but with `regional_holidays=True` (and `region=None`):
the invalid single-region configuration. -/
def a6 : PTArgs := {
  country := "DE"
  region := RegionSel.none
  regional_holidays := true
  keep_data := true
  ignore_before := Option.none
  growthKw := Option.none }

/-! ### Basic lemmas about the sorting step -/

theorem sortEntries_perm (l : List Entry) : (sortEntries l).Perm l :=
  List.perm_insertionSort _ l

theorem mem_sortEntries {p : Entry} {l : List Entry} : p ∈ sortEntries l ↔ p ∈ l :=
  List.mem_insertionSort _

theorem sortEntries_eq_nil {l : List Entry} (h : sortEntries l = []) : l = [] := by
  have hp := sortEntries_perm l
  rw [h] at hp
  exact hp.symm.eq_nil

theorem map_fst_nodup_sortEntries {l : List Entry}
    (h : (l.map Prod.fst).Nodup) : ((sortEntries l).map Prod.fst).Nodup :=
  (((sortEntries_perm l).map Prod.fst).nodup_iff).mpr h

/-- In a list whose dates are pairwise distinct, a date determines its
value. -/
theorem keys_nodup_eq {l : List Entry} (h : (l.map Prod.fst).Nodup)
    {d : Date} {x y : Option ℚ} (hx : (d, x) ∈ l) (hy : (d, y) ∈ l) : x = y := by
  induction l with
  | nil => cases hx
  | cons a t ih =>
    simp only [List.map_cons, List.nodup_cons] at h
    rcases List.mem_cons.1 hx with hx1 | hx1 <;> rcases List.mem_cons.1 hy with hy1 | hy1
    · exact (Prod.ext_iff.mp (hx1.trans hy1.symm)).2
    · subst hx1
      exact absurd (List.mem_map_of_mem Prod.fst hy1) h.1
    · subst hy1
      exact absurd (List.mem_map_of_mem Prod.fst hx1) h.1
    · exact ih h.2 hx1 hy1

/-! ### Shape of the outcomes of `predict_testcounts` -/

/-- Every branch of `predictCore` returns the series it was given as the final
series state. -/
theorem predictCore_fst (env : HolEnv) (eng : Engine) (tcS : Series) (ib : Date)
    (a : PTArgs) : (predictCore env eng tcS ib a).1 = tcS := by
  unfold predictCore
  split
  · rfl
  · split
    · rfl
    · split <;> rfl

/-- The final state of the caller's series: index renamed to `date`, series
renamed to `total`, entries sorted — on every path, error paths included. -/
theorem predict_testcounts_fst (env : HolEnv) (eng : Engine) (tc : Series)
    (a : PTArgs) :
    (predict_testcounts env eng tc a).1 =
      { indexName := "date", name := "total", entries := sortEntries tc.entries } := by
  unfold predict_testcounts
  split
  · next heq => simp [heq, sortEntries, List.insertionSort]
  · rw [predictCore_fst]
  · rw [predictCore_fst]

/-- A successful `predictCore` call produces the result series by
reassembling the given entries with some point-estimate function, and returns
the matching forecast frame. -/
theorem predictCore_ok_shape {env : HolEnv} {eng : Engine} {tcS : Series}
    {ib : Date} {a : PTArgs} {fr : FResult}
    (h : (predictCore env eng tcS ib a).2.2 = Except.ok fr) :
    ∃ yhat : Date → ℚ,
      fr.forecast = tcS.entries.map (fun p => (p.1, yhat p.1)) ∧
      fr.result = ⟨"date", "testcount",
        reassemble a.keep_data ib yhat (listMax (fr.forecast.map Prod.snd))
          tcS.entries⟩ := by
  unfold predictCore at h
  split at h
  · cases h
  · split at h
    · cases h
    · split at h
      · cases h
      · next heq =>
        simp only [runModel, Except.ok.injEq] at h
        subst h
        exact ⟨_, rfl, rfl⟩

/-- A successful `predict_testcounts` call produces the result series by
reassembling the sorted input entries with some floor and some point-estimate
function, together with the matching forecast frame. -/
theorem predict_ok_shape {env : HolEnv} {eng : Engine} {tc : Series} {a : PTArgs}
    {fr : FResult}
    (h : (predict_testcounts env eng tc a).2.2 = Except.ok fr) :
    ∃ (ib : Date) (yhat : Date → ℚ),
      fr.forecast = (sortEntries tc.entries).map (fun p => (p.1, yhat p.1)) ∧
      fr.result = ⟨"date", "testcount",
        reassemble a.keep_data ib yhat (listMax (fr.forecast.map Prod.snd))
          (sortEntries tc.entries)⟩ := by
  unfold predict_testcounts at h
  split at h
  · cases h
  · exact ⟨_, predictCore_ok_shape h⟩
  · exact ⟨_, predictCore_ok_shape h⟩

/-! ### Claims C1, C2, C3: value preservation, output bounds, output index -/

/-- C1: for every date-indexed testcount series and every call to
`predict_testcounts` with `keep_data=True` that returns successfully, every
date whose input value is non-missing carries exactly its original input
value, unchanged, in the returned series. -/
theorem C1_keep_data_preserves_observed (env : HolEnv) (eng : Engine)
    (tc : Series) (a : PTArgs) (fr : FResult) (hk : a.keep_data = true)
    (hnd : (tc.entries.map Prod.fst).Nodup)
    (h : (predict_testcounts env eng tc a).2.2 = Except.ok fr)
    (d : Date) (q : ℚ) (hmem : (d, some q) ∈ tc.entries) :
    (d, some q) ∈ fr.result.entries ∧
      ∀ v : Option ℚ, (d, v) ∈ fr.result.entries → v = some q := by
  obtain ⟨ib, yhat, hfc, hres⟩ := predict_ok_shape h
  rw [hres]
  have hmem' : (d, some q) ∈ sortEntries tc.entries := mem_sortEntries.mpr hmem
  have hnd' := map_fst_nodup_sortEntries hnd
  have hmask : maskPredict a.keep_data ib d (some q) = false := by
    rw [hk]; simp [maskPredict]
  constructor
  · simp only [reassemble, List.mem_map]
    exact ⟨(d, some q), hmem', by rw [hmask]; simp⟩
  · intro v hv
    simp only [reassemble, List.mem_map] at hv
    obtain ⟨p, hp, hfp⟩ := hv
    by_cases hm : maskPredict a.keep_data ib p.1 p.2 = true
    · rw [if_pos hm] at hfp
      have hd : p.1 = d := congrArg Prod.fst hfp
      have hp' : (d, p.2) ∈ sortEntries tc.entries := by rw [← hd]; exact hp
      have hq : p.2 = some q := keys_nodup_eq hnd' hp' hmem'
      rw [hk, hd, hq] at hm
      simp [maskPredict] at hm
    · rw [if_neg hm] at hfp
      rw [hfp] at hp
      exact keys_nodup_eq hnd' hp hmem'

/-- C2 (amended): on every successful call, every entry of the returned
series is either an original input entry kept unchanged, or carries the
clipped point estimate, which never exceeds the maximum point estimate of the
call and is non-negative whenever that maximum is non-negative. -/
theorem C2_output_bounds (env : HolEnv) (eng : Engine) (tc : Series)
    (a : PTArgs) (fr : FResult)
    (h : (predict_testcounts env eng tc a).2.2 = Except.ok fr)
    (p : Entry) (hp : p ∈ fr.result.entries) :
    p ∈ tc.entries ∨
      ∃ q : ℚ, p.2 = some q ∧ q ≤ listMax (fr.forecast.map Prod.snd) ∧
        (0 ≤ listMax (fr.forecast.map Prod.snd) → 0 ≤ q) := by
  obtain ⟨ib, yhat, hfc, hres⟩ := predict_ok_shape h
  rw [hres] at hp
  simp only [reassemble, List.mem_map] at hp
  obtain ⟨p0, hp0, hfp⟩ := hp
  by_cases hm : maskPredict a.keep_data ib p0.1 p0.2 = true
  · right
    rw [if_pos hm] at hfp
    refine ⟨npClip (yhat p0.1) 0 (listMax (fr.forecast.map Prod.snd)), ?_, ?_, ?_⟩
    · rw [← hfp]
    · exact min_le_right _ _
    · intro h0
      exact le_min (le_max_right _ _) h0
  · left
    rw [if_neg hm] at hfp
    rw [← hfp]
    exact mem_sortEntries.mp hp0

/-- C2 counterexample: a successful call (constant point estimate `-1`, one
kept observation `5`) whose returned series has a value above the maximum
point estimate and a value below zero, refuting the claimed bounds. -/
theorem C2_counterexample :
    (predict_testcounts envD engNeg tcD aD).2.2 = Except.ok frNeg ∧
    ¬ (∀ p ∈ frNeg.result.entries, ∀ q : ℚ, p.2 = some q →
        0 ≤ q ∧ q ≤ listMax (frNeg.forecast.map Prod.snd)) :=
  ⟨by decide, by decide⟩

/-- C3 (amended): on every successful call the returned series' index is the
input's dates in ascending order — identical to the index as passed exactly
when the input index was already sorted. -/
theorem C3_output_index (env : HolEnv) (eng : Engine) (tc : Series)
    (a : PTArgs) (fr : FResult)
    (h : (predict_testcounts env eng tc a).2.2 = Except.ok fr) :
    fr.result.entries.map Prod.fst = (sortEntries tc.entries).map Prod.fst := by
  obtain ⟨ib, yhat, hfc, hres⟩ := predict_ok_shape h
  rw [hres]
  simp only [reassemble, List.map_map]
  refine List.map_congr_left fun p hp => ?_
  by_cases hm : maskPredict a.keep_data ib p.1 p.2 = true <;>
    simp [hm, Function.comp]

/-- C3 counterexample: a successful call on a series passed with an unsorted
date index returns a series whose index is not the caller's index. -/
theorem C3_counterexample :
    (predict_testcounts envD engD tcU aD).2.2 = Except.ok frU ∧
    frU.result.entries.map Prod.fst ≠ tcU.entries.map Prod.fst :=
  ⟨by decide, by decide⟩

/-- Witness for C1 at a concrete call: the observed value `5` at `dA` is kept
unchanged and is the unique value at that date. -/
theorem C1_witness :
    (predict_testcounts envD engD tcD aD).2.2 = Except.ok frD ∧
    ((dA, some (5 : ℚ)) ∈ frD.result.entries ∧
      ∀ v : Option ℚ, (dA, v) ∈ frD.result.entries → v = some 5) :=
  ⟨by decide,
    C1_keep_data_preserves_observed envD engD tcD aD frD rfl (by decide)
      (by decide) dA 5 (by decide)⟩

/-- Witness for the amended C2 at a concrete call and the predicted entry
`(dB, 7)`. -/
theorem C2_witness :
    ((dB, some (7 : ℚ)) : Entry) ∈ tcD.entries ∨
      ∃ q : ℚ, ((dB, some (7 : ℚ)) : Entry).2 = some q ∧
        q ≤ listMax (frD.forecast.map Prod.snd) ∧
        (0 ≤ listMax (frD.forecast.map Prod.snd) → 0 ≤ q) :=
  C2_output_bounds envD engD tcD aD frD (by decide) (dB, some 7) (by decide)

/-- Witness for the amended C3 at a concrete call. -/
theorem C3_witness :
    frD.result.entries.map Prod.fst = (sortEntries tcD.entries).map Prod.fst :=
  C3_output_index envD engD tcD aD frD (by decide)

/-! ### Claim C4: the year set of the holiday fetches -/

/-- Every holiday-fetch event emitted by `buildHolidayTable` carries the year
set it was called with. -/
theorem buildHolidayTable_years (env : HolEnv) (a : PTArgs) (years : List Int)
    {c : String} {r : RegionSel} {ys : List Int}
    (hmem : Event.fetchHolidays c r ys ∈ (buildHolidayTable env a years).1) :
    ys = years := by
  unfold buildHolidayTable at hmem
  split at hmem
  all_goals split at hmem
  all_goals try split at hmem
  all_goals simp only [List.mem_cons, List.not_mem_nil, or_false,
    Event.fetchHolidays.injEq] at hmem
  all_goals tauto

/-- Every holiday-fetch event of `predictCore` carries the deduplicated pair
of the first and last years of the (already sorted) entries. -/
theorem predictCore_fetch_years (env : HolEnv) (eng : Engine) (tcS : Series)
    (ib : Date) (a : PTArgs) {c : String} {r : RegionSel} {ys : List Int}
    (hmem : Event.fetchHolidays c r ys ∈ (predictCore env eng tcS ib a).2.1) :
    ∃ first rest, tcS.entries = first :: rest ∧
      ys = List.dedup [first.1.year, ((first :: rest).getLastD first).1.year] := by
  unfold predictCore at hmem
  split at hmem
  · cases hmem
  · next first rest heq =>
    refine ⟨first, rest, heq, ?_⟩
    split at hmem
    · cases hmem
    · split at hmem
      · rename_i evs e heq2
        apply buildHolidayTable_years env a
          (List.dedup [first.1.year, ((first :: rest).getLastD first).1.year])
        rw [heq2]
        exact hmem
      · rename_i evs hdf allh heq2
        rcases List.mem_append.mp hmem with hL | hR
        · apply buildHolidayTable_years env a
            (List.dedup [first.1.year, ((first :: rest).getLastD first).1.year])
          rw [heq2]
          exact hL
        · simp only [runModel, List.mem_cons, List.not_mem_nil, or_false] at hR
          rcases hR with h1 | h1 <;> cases h1

/-- C4 (amended): every holiday fetch of a `predict_testcounts` call uses
exactly the set of the sorted series' first and last years — an intermediate
calendar year of the span is not included. -/
theorem C4_fetch_years (env : HolEnv) (eng : Engine) (tc : Series) (a : PTArgs)
    (c : String) (r : RegionSel) (ys : List Int)
    (hmem : Event.fetchHolidays c r ys ∈ (predict_testcounts env eng tc a).2.1) :
    ys = yearsOf tc.entries := by
  unfold predict_testcounts at hmem
  split at hmem
  · cases hmem
  all_goals
    obtain ⟨first, rest, heq, hys⟩ := predictCore_fetch_years _ _ _ _ _ hmem
  all_goals
    rw [hys]
  all_goals
    unfold yearsOf
  all_goals
    rw [show sortEntries tc.entries = first :: rest from heq]

/-- C4 counterexample: a series spanning 2019 through 2021 fetches holidays
for the year set `{2019, 2021}` only — 2020 lies between the first and last
years but is not fetched. -/
theorem C4_counterexample :
    (predict_testcounts envD engD tc3y aD).2.1 =
      [Event.fetchHolidays "DE" RegionSel.none [2019, 2021],
       Event.modelFit ⟨[(d19, some 1), (d20, some 2), (d21, some 3)], some (0, some 3)⟩,
       Event.modelPredict
         ⟨[(d19, some 1), (d20, some 2), (d21, some 3)], some (0, some 3)⟩] ∧
    tc3y.entries.map (fun p => p.1.year) = [2019, 2020, 2021] ∧
    (2020 : Int) ∉ ([2019, 2021] : List Int) :=
  ⟨by decide, by decide, by decide⟩

/-- Witness for the amended C4 at a concrete call. -/
theorem C4_witness : ([2020] : List Int) = yearsOf tcD.entries :=
  C4_fetch_years envD engD tcD aD "DE" RegionSel.none [2020] (by decide)

/-! ### Claim C5: the default `ignore_before` floor -/

/-- `buildHolidayTable` emits holiday-fetch events only. -/
theorem buildHolidayTable_no_modelFit (env : HolEnv) (a : PTArgs)
    (years : List Int) (df : Frame) :
    Event.modelFit df ∉ (buildHolidayTable env a years).1 := by
  intro hmem
  unfold buildHolidayTable at hmem
  split at hmem
  all_goals split at hmem
  all_goals try split at hmem
  all_goals simp at hmem

/-- The model-fit event of `predictCore` always carries the fit frame built
from the floor it was given. -/
theorem predictCore_modelFit (env : HolEnv) (eng : Engine) (tcS : Series)
    (ib : Date) (a : PTArgs) (df : Frame)
    (hmem : Event.modelFit df ∈ (predictCore env eng tcS ib a).2.1) :
    df = fitFrame a tcS ib := by
  unfold predictCore at hmem
  split at hmem
  · cases hmem
  · next first rest heq =>
    split at hmem
    · cases hmem
    · split at hmem
      · rename_i evs e heq2
        refine absurd ?_ (buildHolidayTable_no_modelFit env a
          (List.dedup [first.1.year, ((first :: rest).getLastD first).1.year]) df)
        rw [heq2]
        exact hmem
      · rename_i evs hdf allh heq2
        rcases List.mem_append.mp hmem with hL | hR
        · refine absurd ?_ (buildHolidayTable_no_modelFit env a
            (List.dedup [first.1.year, ((first :: rest).getLastD first).1.year]) df)
          rw [heq2]
          exact hL
        · simp only [runModel, List.mem_cons, List.not_mem_nil, or_false] at hR
          rcases hR with h1 | h1
          · injection h1 with h2
          · cases h1

/-- C5 (amended): when `ignore_before` is unset, the fit floor is the date at
position 0 of the index exactly as passed by the caller — taken before the
sort — so it coincides with the earliest date precisely when the input index
was already sorted.  The training frame handed to the model is the sorted
series filtered by that floor. -/
theorem C5_default_floor (env : HolEnv) (eng : Engine) (tc : Series)
    (a : PTArgs) (e0 : Entry) (rest : List Entry) (df : Frame)
    (hib : a.ignore_before = Option.none)
    (hentries : tc.entries = e0 :: rest)
    (hmem : Event.modelFit df ∈ (predict_testcounts env eng tc a).2.1) :
    df.rows = (sortEntries tc.entries).filter fun p => maskFit e0.1 p.1 := by
  unfold predict_testcounts at hmem
  simp only [hib, hentries] at hmem
  rw [hentries, predictCore_modelFit _ _ _ _ _ _ hmem]
  rfl

/-- C5 counterexample: an unsorted two-day series with `ignore_before` unset
and `keep_data=False`: the floor is the (late) date at position 0, so the fit
frame excludes the earlier date and the earlier date is not overwritten —
whereas flooring at the first date of the sorted series would have kept every
row in the fit frame. -/
theorem C5_counterexample :
    (predict_testcounts envD engD tcU a5).2.1 =
      [Event.fetchHolidays "DE" RegionSel.none [2020],
       Event.modelFit ⟨[(dB, some 3)], some (0, some 4)⟩,
       Event.modelPredict ⟨[(dA, some 4), (dB, some 3)], some (0, some 4)⟩] ∧
    (predict_testcounts envD engD tcU a5).2.2 = Except.ok fr5 ∧
    (sortEntries tcU.entries).filter (fun p => maskFit dA p.1) ≠ [(dB, some 3)] :=
  ⟨by decide, by decide, by decide⟩

/-- Witness for the amended C5 at a concrete sorted call. -/
theorem C5_witness :
    (Frame.mk [(dA, some (5 : ℚ)), (dB, Option.none)] (some (0, Option.none))).rows =
      (sortEntries tcD.entries).filter fun p => maskFit dA p.1 :=
  C5_default_floor envD engD tcD aD (dA, some 5) [(dB, Option.none)]
    ⟨[(dA, some 5), (dB, Option.none)], some (0, Option.none)⟩ rfl rfl (by decide)

/-! ### Claims C6 and C9: the configuration error and the in-place mutation -/

/-- On a non-empty sorted series, the single-region regional-holiday
configuration is rejected with the `ValueError` and an empty event log. -/
theorem predictCore_config_error (env : HolEnv) (eng : Engine) (tcS : Series)
    (ib : Date) (a : PTArgs) (hrh : a.regional_holidays = true)
    (hall : a.region ≠ RegionSel.str "all")
    (hlen : (atleast1d a.region).length ≤ 1) (hne : tcS.entries ≠ []) :
    (predictCore env eng tcS ib a).2 =
      ([], Except.error (PyError.valueError configErrorMsg)) := by
  unfold predictCore
  split
  · next heq => exact absurd heq hne
  · rw [if_pos ⟨hall, hlen, hrh⟩]

/-- The single-region regional-holiday configuration is rejected with the
`ValueError` and an empty event log, for every non-empty input series. -/
theorem predict_config_error (env : HolEnv) (eng : Engine) (tc : Series)
    (a : PTArgs) (hrh : a.regional_holidays = true)
    (hall : a.region ≠ RegionSel.str "all")
    (hlen : (atleast1d a.region).length ≤ 1) (hne : tc.entries ≠ []) :
    (predict_testcounts env eng tc a).2 =
      ([], Except.error (PyError.valueError configErrorMsg)) := by
  unfold predict_testcounts
  split
  · exact absurd ‹tc.entries = []› hne
  · exact predictCore_config_error env eng _ _ a hrh hall hlen
      (fun hh => hne (sortEntries_eq_nil hh))
  · exact predictCore_config_error env eng _ _ a hrh hall hlen
      (fun hh => hne (sortEntries_eq_nil hh))

/-- C6: for every region selector that is not the literal "all" and whose
effective region count is at most 1 (`None`, `[]`, a single code, or a
one-element list), calling with `regional_holidays=True` on a non-empty
series fails with the configuration `ValueError`, and the event log is empty:
it fails before any holiday fetching or model fitting begins. -/
theorem C6_single_region_config_error (env : HolEnv) (eng : Engine)
    (tc : Series) (a : PTArgs) (hrh : a.regional_holidays = true)
    (hall : a.region ≠ RegionSel.str "all")
    (hlen : (atleast1d a.region).length ≤ 1) (hne : tc.entries ≠ []) :
    (predict_testcounts env eng tc a).2.1 = [] ∧
    (predict_testcounts env eng tc a).2.2 =
      Except.error (PyError.valueError configErrorMsg) := by
  have h := predict_config_error env eng tc a hrh hall hlen hne
  exact ⟨by rw [h], by rw [h]⟩

/-- Witness for C6 at a concrete call with `region=None`. -/
theorem C6_witness :
    (predict_testcounts envD engD tcD a6).2.1 = [] ∧
    (predict_testcounts envD engD tcD a6).2.2 =
      Except.error (PyError.valueError configErrorMsg) :=
  C6_single_region_config_error envD engD tcD a6 rfl (by decide) (by decide)
    (by decide)

/-- C9: `predict_testcounts` mutates the caller's series in place on every
path — index renamed to `date`, series renamed to `total`, index sorted — and
when the regional-holiday configuration error is raised the mutation has
already happened (no atomicity on the error path). -/
theorem C9_mutates_input_before_validation :
    (∀ (env : HolEnv) (eng : Engine) (tc : Series) (a : PTArgs),
      (predict_testcounts env eng tc a).1 =
        { indexName := "date", name := "total", entries := sortEntries tc.entries }) ∧
    (∀ (env : HolEnv) (eng : Engine) (tc : Series) (a : PTArgs),
      a.regional_holidays = true → a.region ≠ RegionSel.str "all" →
      (atleast1d a.region).length ≤ 1 → tc.entries ≠ [] →
      (predict_testcounts env eng tc a).2 =
        ([], Except.error (PyError.valueError configErrorMsg))) :=
  ⟨predict_testcounts_fst, fun env eng tc a h1 h2 h3 h4 =>
    predict_config_error env eng tc a h1 h2 h3 h4⟩

/-- Witness for C9 at a concrete erroring call on an unsorted series: the
final series state is renamed and sorted although the call failed. -/
theorem C9_witness :
    (predict_testcounts envD engD tcU a6).1 =
      { indexName := "date", name := "total", entries := sortEntries tcU.entries } ∧
    (predict_testcounts envD engD tcU a6).2 =
      ([], Except.error (PyError.valueError configErrorMsg)) :=
  ⟨C9_mutates_input_before_validation.1 envD engD tcU a6,
   C9_mutates_input_before_validation.2 envD engD tcU a6 rfl (by decide)
     (by decide) (by decide)⟩

/-! ### Claim C8: unknown-country and unknown-region errors of `get_holidays` -/

/-- If the requested list contains a subdivision that is in neither the
province list nor the state list, the merge loop fails with an
unknown-region key error (at the first such subdivision encountered). -/
theorem mergeRegions_invalid (cls : CountryCls) (years : List Int) (s : String)
    (hp : s ∉ cls.PROVINCES) (hst : cls.hasSTATES = false ∨ s ∉ cls.STATES) :
    ∀ (regions : List String), s ∈ regions → ∀ acc : NamedDates,
      ∃ r', mergeRegions cls years acc regions =
        Except.error (PyError.keyErrorRegion r') := by
  intro regions
  induction regions with
  | nil => intro hmem; cases hmem
  | cons t ts ih =>
    intro hmem acc
    unfold mergeRegions
    split
    · next hprov =>
      rcases List.mem_cons.1 hmem with rfl | hmem'
      · exact absurd hprov hp
      · exact ih hmem' _
    · split
      · next hstate =>
        rcases List.mem_cons.1 hmem with rfl | hmem'
        · rcases hst with h1 | h1
          · exact Bool.noConfusion (h1 ▸ hstate.1)
          · exact absurd hstate.2 h1
        · exact ih hmem' _
      · exact ⟨t, rfl⟩

/-- C8: `get_holidays` fails with the unknown-country key error whenever the
resolved alpha-3 code has no holiday class, and with an unknown-region key
error whenever a requested subdivision is in neither the province list nor
the state list of the resolved country. -/
theorem C8_unknown_country_and_region :
    (∀ (env : HolEnv) (country : String) (region : RegionSel) (years : List Int)
        (alpha3 : String),
      env.resolveAlpha3 country = some alpha3 →
      env.holidaysAttr alpha3 = Option.none →
      get_holidays env country region years =
        Except.error (PyError.keyErrorCountry alpha3)) ∧
    (∀ (env : HolEnv) (country : String) (region : RegionSel) (years : List Int)
        (alpha3 : String) (cls : CountryCls) (s : String),
      env.resolveAlpha3 country = some alpha3 →
      env.holidaysAttr alpha3 = some cls →
      region ≠ RegionSel.str "all" → s ∈ requestedRegions region →
      s ∉ cls.PROVINCES → (cls.hasSTATES = false ∨ s ∉ cls.STATES) →
      ∃ r', get_holidays env country region years =
        Except.error (PyError.keyErrorRegion r')) := by
  constructor
  · intro env country region years alpha3 h1 h2
    unfold get_holidays
    simp only [h1, h2]
  · intro env country region years alpha3 cls s h1 h2 hall hmem hp hst
    have hcond : (if region.falsy then RegionSel.list [] else region) ≠
        RegionSel.str "all" := by
      split
      · exact fun hc => RegionSel.noConfusion hc
      · exact hall
    unfold get_holidays
    simp only [h1, h2]
    rw [if_neg hcond]
    exact mergeRegions_invalid cls years s hp hst _ hmem _

/-- A holiday environment whose resolver succeeds but whose `holidays`
package has no class for the resolved code. -/
def env8 : HolEnv := {
  resolveAlpha3 := fun _ => some "XYZ"
  holidaysAttr := fun _ => Option.none }

/-- Witness for C8: a country with no holiday class, and a subdivision
requested from a country that has neither provinces nor states. -/
theorem C8_witness :
    get_holidays env8 "DE" RegionSel.none [2020] =
      Except.error (PyError.keyErrorCountry "XYZ") ∧
    ∃ r', get_holidays envD "DE" (RegionSel.str "CA") [2020] =
      Except.error (PyError.keyErrorRegion r') :=
  ⟨C8_unknown_country_and_region.1 env8 "DE" RegionSel.none [2020] "XYZ" rfl rfl,
   C8_unknown_country_and_region.2 envD "DE" (RegionSel.str "CA") [2020] "DEU"
     clsD "CA" rfl rfl (by decide) (by decide) (by decide) (Or.inl rfl)⟩

/-! ### Claims C7 and C10: the batch runner's training threshold -/

/-- If every region in the list is at or below the training threshold, the
loop attempts nothing and leaves the state untouched. -/
theorem batchLoop_skip_all (env : HolEnv) (eng : Engine) (c : String)
    (ov : PTOverrides) (rows : List (String × Date × Option ℚ)) :
    ∀ (regions : List String) (st : BatchState),
      (∀ r ∈ regions, nTrain rows r ≤ 10) →
      batchLoop env eng c ov rows regions st = ([], Except.ok st) := by
  intro regions
  induction regions with
  | nil => intro st _; rfl
  | cons r rs ih =>
    intro st h
    unfold batchLoop
    rw [if_neg (not_lt.mpr (h r (List.mem_cons_self r rs)))]
    exact ih st fun x hx => h x (List.mem_cons_of_mem r hx)

/-- C10: when no region of the input frame has more than 10 non-missing
observations, the batch runner raises the key error for the never-created
`predicted_new_tests` column instead of returning an empty combined series
and an empty mapping. -/
theorem C10_all_below_threshold_keyerror (env : HolEnv) (eng : Engine)
    (df : DataFrame) (country : String) (ov : PTOverrides)
    (h : ∀ r ∈ sortedUnique (df.rows.map fun t => t.1), nTrain df.rows r ≤ 10) :
    (predict_testcounts_all_regions env eng df country ov).2 =
      Except.error (PyError.keyErrorColumn "predicted_new_tests") := by
  unfold predict_testcounts_all_regions
  rw [batchLoop_skip_all env eng country ov df.rows
    (sortedUnique (df.rows.map fun t => t.1)) ⟨Option.none, []⟩ h]

/-- A one-row frame whose only region has a single observation. -/
def dfSmall : DataFrame := ⟨[("AA", dA, some 1)]⟩

/-- Witness for C10 at a concrete frame below the threshold everywhere. -/
theorem C10_witness :
    (predict_testcounts_all_regions envD engD dfSmall "DE" {}).2 =
      Except.error (PyError.keyErrorColumn "predicted_new_tests") :=
  C10_all_below_threshold_keyerror envD engD dfSmall "DE" {} (by decide)

/-- The training-threshold policy on the predicted column: a row of a region
with at most 10 non-missing observations carries no predicted value. -/
def PredInv (rows : List (String × Date × Option ℚ))
    (pred : List (Option ℚ)) : Prop :=
  List.Forall₂ (fun t (v : Option ℚ) => nTrain rows t.1 ≤ 10 → v = Option.none)
    rows pred

theorem predInv_init (rows : List (String × Date × Option ℚ)) :
    PredInv rows (rows.map fun _ => Option.none) := by
  have hgen : ∀ l : List (String × Date × Option ℚ),
      List.Forall₂ (fun t (v : Option ℚ) => nTrain rows t.1 ≤ 10 → v = Option.none)
        l (l.map fun _ => Option.none) := by
    intro l
    induction l with
    | nil => exact List.Forall₂.nil
    | cons a t ih => exact List.Forall₂.cons (fun _ => rfl) ih
  exact hgen rows

/-- Writing a region that clears the threshold preserves the policy on the
predicted column. -/
theorem predInv_assign (rows : List (String × Date × Option ℚ)) (r : String)
    (hr : 10 < nTrain rows r) :
    ∀ (l : List (String × Date × Option ℚ)) (pred vals : List (Option ℚ)),
      List.Forall₂ (fun t (v : Option ℚ) => nTrain rows t.1 ≤ 10 → v = Option.none)
        l pred →
      List.Forall₂ (fun t (v : Option ℚ) => nTrain rows t.1 ≤ 10 → v = Option.none)
        l (assignRegion l pred r vals) := by
  intro l
  induction l with
  | nil =>
    intro pred vals h
    cases h
    exact List.Forall₂.nil
  | cons a t ih =>
    intro pred vals h
    cases h with
    | cons hav htail =>
      simp only [assignRegion]
      split
      · next heq =>
        cases vals with
        | nil => exact List.Forall₂.cons hav (ih _ _ htail)
        | cons v vs =>
          refine List.Forall₂.cons (fun hle => ?_) (ih _ _ htail)
          rw [heq] at hle
          exact absurd hr (not_lt.mpr hle)
      · exact List.Forall₂.cons hav (ih _ _ htail)

/-- Membership in a `zipWith` over `Forall₂`-related lists comes from a
related pair. -/
theorem mem_zipWith_of_forall2 {α β γ : Type} {R : α → β → Prop}
    {f : α → β → γ} : ∀ {l₁ : List α} {l₂ : List β}, List.Forall₂ R l₁ l₂ →
      ∀ x ∈ List.zipWith f l₁ l₂, ∃ a b, R a b ∧ x = f a b := by
  intro l₁ l₂ h
  induction h with
  | nil => intro x hx; cases hx
  | cons hab htail ih =>
    intro x hx
    rcases List.mem_cons.1 hx with rfl | hx'
    · exact ⟨_, _, hab, rfl⟩
    · exact ih x hx'

/-- The loop invariant of the batch runner: on success, the attempted regions
are exactly those above the training threshold, the results mapping grows by
exactly those regions in order, and the predicted column keeps the policy on
below-threshold regions. -/
theorem batchLoop_ok (env : HolEnv) (eng : Engine) (c : String)
    (ov : PTOverrides) (rows : List (String × Date × Option ℚ)) :
    ∀ (regions : List String) (st : BatchState) (attempts : List String)
      (st' : BatchState),
      batchLoop env eng c ov rows regions st = (attempts, Except.ok st') →
      (∀ l, st.pred = some l → PredInv rows l) →
      attempts = regions.filter (fun r => decide (10 < nTrain rows r)) ∧
      st'.results.map Prod.fst = st.results.map Prod.fst ++ attempts ∧
      (∀ l, st'.pred = some l → PredInv rows l) := by
  intro regions
  induction regions with
  | nil =>
    intro st attempts st' h hinv
    simp only [batchLoop, Prod.mk.injEq, Except.ok.injEq] at h
    obtain ⟨h1, h2⟩ := h
    subst h2
    exact ⟨h1.symm, by rw [← h1, List.append_nil], hinv⟩
  | cons r rs ih =>
    intro st attempts st' h hinv
    simp only [batchLoop] at h
    by_cases hr : 10 < nTrain rows r
    · rw [if_pos hr] at h
      split at h
      · simp only [Prod.mk.injEq] at h
        exact Except.noConfusion h.2
      · split at h
        · simp only [Prod.mk.injEq] at h
          exact Except.noConfusion h.2
        · split at h
          · rename_i fr heqpred hassert
            rcases hL : batchLoop env eng c ov rows rs
                ⟨some (assignRegion rows (st.pred.getD (rows.map fun _ => Option.none))
                  r (fr.result.entries.map Prod.snd)), st.results ++ [(r, fr)]⟩
              with ⟨atts, res⟩
            rw [hL] at h
            simp only [Prod.mk.injEq] at h
            obtain ⟨hatt, hres⟩ := h
            subst hatt
            rw [hres] at hL
            have hbase : PredInv rows (st.pred.getD (rows.map fun _ => Option.none)) := by
              cases hst : st.pred with
              | none => exact predInv_init rows
              | some l0 => exact hinv l0 hst
            have hinv2 : ∀ l,
                (some (assignRegion rows (st.pred.getD (rows.map fun _ => Option.none))
                  r (fr.result.entries.map Prod.snd)) : Option (List (Option ℚ))) = some l →
                PredInv rows l := by
              intro l hl
              rw [← Option.some.inj hl]
              exact predInv_assign rows r hr rows _ _ hbase
            obtain ⟨ih1, ih2, ih3⟩ := ih _ _ _ hL hinv2
            refine ⟨?_, ?_, ih3⟩
            · simp [List.filter_cons, hr, ih1]
            · rw [ih2]
              simp [ih1, List.filter_cons, hr]
          · simp only [Prod.mk.injEq] at h
            exact Except.noConfusion h.2
    · rw [if_neg hr] at h
      obtain ⟨ih1, ih2, ih3⟩ := ih _ _ _ h hinv
      refine ⟨?_, ih2, ih3⟩
      simp [List.filter_cons, hr, ih1]

/-- C7: on every successful batch run, imputation is attempted exactly for
the regions with strictly more than 10 non-missing observations, the results
mapping holds exactly those regions, and the combined output series has no
predicted value on any row of a region at or below the threshold. -/
theorem C7_training_threshold (env : HolEnv) (eng : Engine) (df : DataFrame)
    (country : String) (ov : PTOverrides) (attempts : List String)
    (combined : List (String × Date × Option ℚ))
    (results : List (String × FResult))
    (h : predict_testcounts_all_regions env eng df country ov =
      (attempts, Except.ok (combined, results))) :
    attempts = (sortedUnique (df.rows.map fun t => t.1)).filter
      (fun r => decide (10 < nTrain df.rows r)) ∧
    results.map Prod.fst = attempts ∧
    (∀ x ∈ combined, nTrain df.rows x.1 ≤ 10 → x.2.2 = Option.none) := by
  unfold predict_testcounts_all_regions at h
  split at h
  · simp only [Prod.mk.injEq] at h
    exact Except.noConfusion h.2
  · rename_i attempts0 st heqloop
    split at h
    · simp only [Prod.mk.injEq] at h
      exact Except.noConfusion h.2
    · rename_i pred hpred
      simp only [Prod.mk.injEq, Except.ok.injEq] at h
      obtain ⟨hatt, hcomb, hres⟩ := h
      subst hatt
      obtain ⟨h1, h2, h3⟩ := batchLoop_ok env eng country ov df.rows _ _ _ _
        heqloop (fun l hl => by cases hl)
      refine ⟨h1, by rw [← hres, h2]; simp, ?_⟩
      intro x hx hle
      have hpi : PredInv df.rows pred := h3 pred hpred
      obtain ⟨a, b, hab, hxeq⟩ := mem_zipWith_of_forall2 hpi x (hcomb ▸ hx)
      subst hxeq
      exact hab hle

/-- Eleven consecutive days starting 2020-03-16. -/
def dW (i : Nat) : Date := ⟨737500 + i, 2020⟩

/-- Eleven fully observed entries for the trainable region. -/
def tcWentries : List Entry :=
  [(dW 0, some 1), (dW 1, some 1), (dW 2, some 1), (dW 3, some 1), (dW 4, some 1),
   (dW 5, some 1), (dW 6, some 1), (dW 7, some 1), (dW 8, some 1), (dW 9, some 1),
   (dW 10, some 1)]

/-- A two-region frame: `AA` with 11 observations (above the threshold) and
`BB` with a single observation (below it). -/
def dfW : DataFrame :=
  ⟨(tcWentries.map fun p => ("AA", p.1, p.2)) ++ [("BB", dW 0, some 1)]⟩

/-- The forecast result of the batch run for region `AA` of `dfW`. -/
def frW : FResult := {
  result := ⟨"date", "testcount", tcWentries⟩
  model := {
    growth := "linear"
    seasonality_mode := "multiplicative"
    daily_seasonality := false
    weekly_seasonality := true
    yearly_seasonality := false
    holidays := []
    mcmc_samples := 500
    n_changepoints := 1 }
  forecast := tcWentries.map fun p => (p.1, 7)
  all_holidays := [] }

/-- The combined predicted series of the batch run on `dfW`: values for every
`AA` row, no value for the `BB` row. -/
def combinedW : List (String × Date × Option ℚ) :=
  (tcWentries.map fun p => ("AA", p.1, p.2)) ++ [("BB", dW 0, Option.none)]

/-- The results mapping of the batch run on `dfW`. -/
def resultsW : List (String × FResult) := [("AA", frW)]

set_option synthInstance.maxSize 4096 in
/-- Witness for C7 at a concrete successful batch run with one region above
and one region below the threshold. -/
theorem C7_witness :
    (["AA"] : List String) = (sortedUnique (dfW.rows.map fun t => t.1)).filter
      (fun r => decide (10 < nTrain dfW.rows r)) ∧
    resultsW.map Prod.fst = ["AA"] ∧
    (∀ x ∈ combinedW, nTrain dfW.rows x.1 ≤ 10 → x.2.2 = Option.none) :=
  C7_training_threshold envD engD dfW "DE" {} ["AA"] combinedW resultsW (by decide)

end Rtlive
